import Mathlib

/-!
Verification of the usvfs-deployment Vortex extension.

The development shallowly embeds the two revisions of src/index.ts:
the deployment method (prepare / activate / finalize), the usvfs-run
start hook, the activator-change watcher, and the earlier revision's
first-position deploy-mods listener.  External effects (filesystem
stat, turbowalk enumeration, usvfs native calls, event emissions) are
modelled as explicit inputs and effect lists.
-/

namespace USVFS

/-- Identifier of this deployment method (constant METHOD_ID in the source). -/
def METHOD_ID : String := "usvfs-deployment"

/-- Static denylist of game identifiers (constant UNSUPPORTED_GAMES in the source). -/
def UNSUPPORTED_GAMES : List String :=
  ["thesims4", "kingdomcomedeliverance"]

/-- Model of path.join for the two-argument Windows case used by the source
(join of the data path and the mod-relative path). -/
def pathJoin (a b : String) : String :=
  if a.isEmpty then b else if b.isEmpty then a else a ++ "\\" ++ b

/-- Boolean prefix test on character lists. -/
def charsPre : List Char → List Char → Bool
  | [], _ => true
  | _ :: _, [] => false
  | a :: as, b :: bs => a == b && charsPre as bs

/-- Model of path.relative for the case relevant here: the second argument is a
path below the first (turbowalk only yields paths under the walked root), in
which case the prefix and its trailing separator are stripped. -/
def pathRelative (base p : String) : String :=
  if charsPre (base ++ "\\").data p.data then String.mk (p.data.drop (base.length + 1))
  else p

/-- Model of path.dirname for ordinary multi-component Windows paths: the text
before the last path separator, or a dot when the path has no separator. -/
def pathDirname (p : String) : String :=
  let cs := p.data
  let idx := cs.reverse.findIdx (fun c => c == '\\' || c == '/')
  if idx < cs.length then String.mk (cs.take (cs.length - idx - 1)) else "."

/-- One entry delivered by turbowalk: an absolute file path and its mtime. -/
structure FileEntry where
  filePath : String
  mtime : Nat
  deriving DecidableEq, Repr

/-- One element of the deployed-file list mDeployed (types.IDeployedFile as
constructed by activate: relPath, source, time). -/
structure DeployedFile where
  relPath : String
  source : String
  time : Nat
  deriving DecidableEq, Repr

/-- The mutable fields of USVFSDeploymentMethod that the lifecycle operations
touch: mDataPath and mDeployed. -/
structure MethodState where
  mDataPath : String
  mDeployed : List DeployedFile
  deriving DecidableEq, Repr

/-- Calls made against the usvfs native module by the lifecycle operations. -/
inductive VfsOp where
  | clearMappings : VfsOp
  | linkDirectory (source target : String) (recursive : Bool) : VfsOp
  deriving DecidableEq, Repr

/-- The external world as seen by activate: whether fs.statAsync succeeds on a
path, whether VirtualLinkDirectoryStatic succeeds for a source/target pair, the
batches of entries turbowalk delivers to its callback for a root, and whether
the turbowalk promise then resolves. -/
structure FS where
  statOk : String → Bool
  linkOk : String → String → Bool
  walkBatches : String → List (List FileEntry)
  walkOk : String → Bool

/-- Records pushed onto mDeployed for one activate call: per delivered batch,
one record per entry, with relPath relative to the walked root and source set
to the mod name. -/
def activationRecords (fs : FS) (sourcePath sourceName : String) : List DeployedFile :=
  ((fs.walkBatches sourcePath).map (fun files =>
    files.map (fun e => ⟨pathRelative sourcePath e.filePath, sourceName, e.mtime⟩))).flatten

/-- The promise chain of activate before its final catch: stat the source path,
then register the recursive virtual link and walk the tree pushing records.
Any failure (stat, link, walk) surfaces as an error here; records pushed by
batches delivered before a walk failure remain pushed, and a link failure
happens after the link call was already issued. -/
def activateRaw (fs : FS) (st : MethodState) (sourcePath sourceName dataPath : String)
    (blackList : Set String) : MethodState × List VfsOp × Except Unit Unit :=
  if fs.statOk sourcePath then
    let target := pathJoin st.mDataPath dataPath
    if fs.linkOk sourcePath target then
      ({ st with mDeployed := st.mDeployed ++ activationRecords fs sourcePath sourceName },
       [VfsOp.linkDirectory sourcePath target true],
       if fs.walkOk sourcePath then Except.ok () else Except.error ())
    else
      (st, [VfsOp.linkDirectory sourcePath target true], Except.error ())
  else
    (st, [], Except.error ())

/-- activate: the chain above with the trailing catch that swallows every
error, so the returned promise always resolves. -/
def activate (fs : FS) (st : MethodState) (sourcePath sourceName dataPath : String)
    (blackList : Set String) : MethodState × List VfsOp × Except Unit Unit :=
  let r := activateRaw fs st sourcePath sourceName dataPath blackList
  (r.1, r.2.1, Except.ok ())

/-- prepare: clear all virtual mappings when clean is set, store the data path
and reset the deployed-file list. -/
def prepare (st : MethodState) (dataPath : String) (clean : Bool)
    (lastActivation : List DeployedFile) : MethodState × List VfsOp :=
  (⟨dataPath, []⟩, if clean then [VfsOp.clearMappings] else [])

/-- finalize: resolve with the accumulated deployed-file list. -/
def finalize (st : MethodState) (gameId dataPath installationPath : String) :
    List DeployedFile :=
  st.mDeployed

/-- The arguments of one activate call in a deployment cycle. -/
structure ActivateCall where
  sourcePath : String
  sourceName : String
  dataPath : String
  blackList : Set String

/-- Run a sequence of activate calls, threading the method state. -/
def runActivations (fs : FS) (st : MethodState) : List ActivateCall → MethodState
  | [] => st
  | c :: rest =>
    runActivations fs (activate fs st c.sourcePath c.sourceName c.dataPath c.blackList).1 rest

lemma activate_fst (fs : FS) (st : MethodState) (sp sn dp : String) (bl : Set String) :
    (activate fs st sp sn dp bl).1 =
      if fs.statOk sp then
        if fs.linkOk sp (pathJoin st.mDataPath dp) then
          { st with mDeployed := st.mDeployed ++ activationRecords fs sp sn }
        else st
      else st := by
  simp only [activate, activateRaw]
  by_cases h1 : fs.statOk sp
  · by_cases h2 : fs.linkOk sp (pathJoin st.mDataPath dp)
    · by_cases h3 : fs.walkOk sp <;> simp [h1, h2, h3]
    · simp [h1, h2]
  · simp [h1]

lemma activate_mDataPath (fs : FS) (st : MethodState) (sp sn dp : String) (bl : Set String) :
    ((activate fs st sp sn dp bl).1).mDataPath = st.mDataPath := by
  rw [activate_fst]
  by_cases h1 : fs.statOk sp
  · by_cases h2 : fs.linkOk sp (pathJoin st.mDataPath dp) <;> simp [h1, h2]
  · simp [h1]

lemma runActivations_mDeployed (fs : FS) (calls : List ActivateCall) :
    ∀ st : MethodState,
      (∀ c ∈ calls, fs.statOk c.sourcePath = true →
          fs.linkOk c.sourcePath (pathJoin st.mDataPath c.dataPath) = true) →
      (runActivations fs st calls).mDeployed
        = st.mDeployed
          ++ (calls.map (fun c =>
                if fs.statOk c.sourcePath then
                  activationRecords fs c.sourcePath c.sourceName
                else [])).flatten := by
  induction calls with
  | nil => intro st _; simp [runActivations]
  | cons c rest ih =>
    intro st hlink
    have hc := hlink c (List.mem_cons_self c rest)
    have hrest : ∀ d ∈ rest, fs.statOk d.sourcePath = true →
        fs.linkOk d.sourcePath
          (pathJoin ((activate fs st c.sourcePath c.sourceName c.dataPath c.blackList).1).mDataPath
            d.dataPath) = true := by
      intro d hd
      rw [activate_mDataPath]
      exact hlink d (List.mem_cons_of_mem c hd)
    have hstep := ih (activate fs st c.sourcePath c.sourceName c.dataPath c.blackList).1 hrest
    by_cases h1 : fs.statOk c.sourcePath
    · have h2 := hc h1
      simp [activate_fst, h1, h2] at hstep
      simp [runActivations, activate_fst, h1, h2, hstep, List.append_assoc]
    · simp [activate_fst, h1] at hstep
      simp [runActivations, activate_fst, h1, hstep]

/-- C1: after prepare with clean set followed by any sequence of activate
calls whose link registrations succeed for existing mods, finalize returns
exactly one record per file enumerated under each source path whose existence
check succeeded, in call order, with relPath relative to that source path and
source equal to that call's mod name; calls whose source path did not exist
contribute nothing, and the black lists play no role in the result. -/
theorem C1_finalize_exact (fs : FS) (st0 : MethodState) (dataPath : String)
    (lastActivation : List DeployedFile) (calls : List ActivateCall)
    (gameId installationPath : String)
    (hlink : ∀ c ∈ calls, fs.statOk c.sourcePath = true →
        fs.linkOk c.sourcePath (pathJoin dataPath c.dataPath) = true) :
    finalize (runActivations fs (prepare st0 dataPath true lastActivation).1 calls)
        gameId dataPath installationPath
      = (calls.map (fun c =>
            if fs.statOk c.sourcePath then
              activationRecords fs c.sourcePath c.sourceName
            else [])).flatten := by
  have h' : ∀ c ∈ calls, fs.statOk c.sourcePath = true →
      fs.linkOk c.sourcePath
        (pathJoin ((prepare st0 dataPath true lastActivation).1).mDataPath c.dataPath) = true := by
    intro c hc hs
    simpa [prepare] using hlink c hc hs
  have h2 := runActivations_mDeployed fs calls (prepare st0 dataPath true lastActivation).1 h'
  simpa [finalize, prepare] using h2

/-- Witness world for the deployment-method claims: one existing mod root with
two files delivered in two turbowalk batches, and one missing mod root. -/
def fsW : FS :=
  ⟨fun s => s == "C:\\mods\\A",
   fun _ _ => true,
   fun s => if s == "C:\\mods\\A" then
       [[⟨"C:\\mods\\A\\a.txt", 10⟩], [⟨"C:\\mods\\A\\sub\\b.txt", 20⟩]]
     else [],
   fun _ => true⟩

/-- Witness activation sequence: the existing mod, then the missing one. -/
def callsW : List ActivateCall :=
  [⟨"C:\\mods\\A", "modA", "", ∅⟩, ⟨"C:\\mods\\B", "modB", "", ∅⟩]

/-- Witness for C1 at a concrete world: only the files of the existing mod are
reported, with stripped relative paths. -/
theorem C1_witness :
    finalize (runActivations fsW (prepare ⟨"", []⟩ "D:\\data" true []).1 callsW)
        "game" "D:\\data" "inst"
      = [⟨"a.txt", "modA", 10⟩, ⟨"sub\\b.txt", "modA", 20⟩] :=
  (C1_finalize_exact fsW ⟨"", []⟩ "D:\\data" [] callsW "game" "inst"
    (by decide)).trans (by decide)

/-- C2: activate on a source path whose existence check fails resolves, leaves
the state unchanged and registers no virtual link; any later activate in the
same cycle is unaffected by it and, when its own source exists and its link
succeeds, appends its records normally. -/
theorem C2_missing_source_skips (fs : FS) (st : MethodState) (sp sn dp : String)
    (bl : Set String) (h : fs.statOk sp = false) :
    activate fs st sp sn dp bl = (st, [], Except.ok ()) ∧
    (∀ sp2 sn2 dp2 bl2,
      activate fs (activate fs st sp sn dp bl).1 sp2 sn2 dp2 bl2
        = activate fs st sp2 sn2 dp2 bl2) ∧
    (∀ sp2 sn2 dp2 bl2, fs.statOk sp2 = true →
      fs.linkOk sp2 (pathJoin st.mDataPath dp2) = true →
      ((activate fs (activate fs st sp sn dp bl).1 sp2 sn2 dp2 bl2).1).mDeployed
        = st.mDeployed ++ activationRecords fs sp2 sn2) := by
  have hfst : activate fs st sp sn dp bl = (st, [], Except.ok ()) := by
    simp [activate, activateRaw, h]
  refine ⟨hfst, ?_, ?_⟩
  · intro sp2 sn2 dp2 bl2
    rw [hfst]
  · intro sp2 sn2 dp2 bl2 h2 h3
    rw [hfst, activate_fst]
    simp [h2, h3]

/-- Witness for C2 at a concrete world: activating the missing mod is a no-op
and the following activate of the existing mod appends its two records. -/
theorem C2_witness :
    activate fsW ⟨"D:\\data", []⟩ "C:\\mods\\B" "modB" "" ∅
        = (⟨"D:\\data", []⟩, [], Except.ok ()) ∧
    ((activate fsW (activate fsW ⟨"D:\\data", []⟩ "C:\\mods\\B" "modB" "" ∅).1
        "C:\\mods\\A" "modA" "" ∅).1).mDeployed
      = [⟨"a.txt", "modA", 10⟩, ⟨"sub\\b.txt", "modA", 20⟩] := by
  have h := C2_missing_source_skips fsW ⟨"D:\\data", []⟩ "C:\\mods\\B" "modB" "" ∅ (by decide)
  exact ⟨h.1, (h.2.2 "C:\\mods\\A" "modA" "" ∅ (by decide) (by decide)).trans (by decide)⟩

/-- C10: activate never rejects: whatever the outcomes of the existence check,
the link registration and the tree enumeration, the final catch swallows the
error and the promise resolves. -/
theorem C10_activate_always_resolves (fs : FS) (st : MethodState)
    (sp sn dp : String) (bl : Set String) :
    (activate fs st sp sn dp bl).2.2 = Except.ok () := rfl

/-- Errors carried by rejected promises in the hook chain: a not-found error
(code ENOENT) or any other error, as the bluebird predicate catch only looks at
the code field. -/
inductive JsError where
  | enoent : JsError
  | other (msg : String) : JsError
  deriving DecidableEq, Repr

/-- Outcome flowing through the hook promise chain: a plain error or the
ProcessCanceled rejection the hook uses to signal a handled launch. -/
inductive ChainErr where
  | jsErr (e : JsError) : ChainErr
  | processCanceled (msg : String) : ChainErr
  deriving DecidableEq, Repr

/-- The launch request handed to the usvfs-run start hook: executable, argument
list, optional working directory and environment overrides (call.options). -/
structure StartHookCall where
  executable : String
  args : List String
  cwd : Option String
  env : List (String × String)
  deriving DecidableEq, Repr

/-- One CreateProcessHooked invocation observed during a hook run. -/
structure VfsLaunch where
  commandLine : String
  cwd : Option String
  env : List (String × String)
  deriving DecidableEq, Repr

/-- The external world as seen by the start hook: the currently selected
activator, the session activity markers (later revision), the outcome the
deploy-mods callback is eventually invoked with (none meaning success), whether
fs.statAsync succeeds on the executable, whether CreateProcessHooked throws for
a given command line, and the process environment. -/
structure HookEnv where
  activator : Option String
  activityMods : List String
  deployResult : Option JsError
  exeExists : String → Bool
  launchErr : String → Option JsError
  procEnv : List (String × String)

/-- Model of the object spread of two environments: keys of the first in
order, overridden by the second where shared, then the new keys of the second. -/
def spreadMerge (a b : List (String × String)) : List (String × String) :=
  a.map (fun p => (p.1, (b.lookup p.1).getD p.2))
    ++ b.filter (fun p => (a.lookup p.1).isNone)

/-- The command line of the direct launch: executable, a space, the
space-joined arguments (template executable args.join in the source). -/
def directCmd (call : StartHookCall) : String :=
  call.executable ++ " " ++ String.intercalate " " call.args

/-- The working directory resolved for the trampoline: the caller-supplied one
when it is a non-empty string (JS truthiness of the or-operator), otherwise the
directory of the executable. -/
def trampolineCwd (call : StartHookCall) : String :=
  match call.cwd with
  | some c => if c.isEmpty then pathDirname call.executable else c
  | none => pathDirname call.executable

/-- The trampoline command line: a cmd /C invocation that first changes into
the resolved working directory and then runs the original command line. -/
def trampolineCmd (call : StartHookCall) : String :=
  "cmd /C \"cd " ++ trampolineCwd call ++ " && " ++ directCmd call ++ "\""

/-- Stat of the executable followed by the direct CreateProcessHooked attempt:
a missing executable rejects with ENOENT without launching; otherwise the
launch is attempted with the caller working directory verbatim and the spread
environment, and its success turns into the ProcessCanceled rejection. -/
def statLaunchDirect (env : HookEnv) (call : StartHookCall) :
    Except ChainErr Unit × List VfsLaunch :=
  if env.exeExists call.executable then
    let l : VfsLaunch := ⟨directCmd call, call.cwd, spreadMerge env.procEnv call.env⟩
    match env.launchErr (directCmd call) with
    | some e => (Except.error (ChainErr.jsErr e), [l])
    | none => (Except.error (ChainErr.processCanceled "run through usvfs"), [l])
  else (Except.error (ChainErr.jsErr JsError.enoent), [])

/-- The trailing predicate catch of the chain: only an ENOENT rejection is
handled, by attempting the trampoline launch; everything else passes through. -/
def enoentCatch (env : HookEnv) (call : StartHookCall)
    (r : Except ChainErr Unit × List VfsLaunch) :
    Except ChainErr Unit × List VfsLaunch :=
  match r.1 with
  | Except.error (ChainErr.jsErr JsError.enoent) =>
    let l : VfsLaunch := ⟨trampolineCmd call, some "c:\\", spreadMerge env.procEnv call.env⟩
    (match env.launchErr (trampolineCmd call) with
     | some e => Except.error (ChainErr.jsErr e)
     | none => Except.error (ChainErr.processCanceled "run through usvfs"),
     r.2 ++ [l])
  | _ => r

/-- The part of the chain after the deployment promise: stat and direct launch
when the deployment step succeeded, then the ENOENT catch over whatever came
out. -/
def afterDeploy (env : HookEnv) (call : StartHookCall) (d : Except ChainErr Unit) :
    Except ChainErr Unit × List VfsLaunch :=
  enoentCatch env call
    (match d with
     | Except.error e => (Except.error e, [])
     | Except.ok _ => statLaunchDirect env call)

/-- The value the hook settles with, as seen by the caller of the start hook. -/
inductive HookResult where
  | passThrough (call : StartHookCall) : HookResult
  | resolvedEmpty : HookResult
  | canceled (msg : String) : HookResult
  | errored (e : JsError) : HookResult
  deriving DecidableEq, Repr

/-- Translate the chain outcome into the hook result. -/
def toHookResult : Except ChainErr Unit → HookResult
  | Except.ok _ => HookResult.resolvedEmpty
  | Except.error (ChainErr.processCanceled m) => HookResult.canceled m
  | Except.error (ChainErr.jsErr e) => HookResult.errored e

/-- Everything observable about one hook run: the settled result, the
fromusvfs tags of the deploy-mods emissions, and the CreateProcessHooked
invocations in order. -/
structure HookOutcome where
  result : HookResult
  deployEmits : List Bool
  vfsLaunches : List VfsLaunch
  deriving DecidableEq, Repr

/-- The active-activator body of the hook, shared verbatim by both revisions
up to how the in-flight test is computed: when a deployment is already in
flight, resolve at once without emitting; otherwise emit one deploy-mods event
whose callback carries the fromusvfs tag and settle with the callback outcome;
then run the stat / launch / catch chain. -/
def runHookGuarded (inFlight : Bool) (env : HookEnv) (call : StartHookCall) :
    HookOutcome :=
  let dstep : Except ChainErr Unit × List Bool :=
    if inFlight then (Except.ok (), [])
    else
      match env.deployResult with
      | none => (Except.ok (), [true])
      | some e => (Except.error (ChainErr.jsErr e), [true])
  let r := afterDeploy env call dstep.1
  ⟨toHookResult r.1, dstep.2, r.2⟩

/-- The usvfs-run start hook of the later revision: pass the call through
unchanged when this method is not the current activator, and otherwise run the
guarded body, the in-flight test being the deployment marker in the session
activity list. -/
def startHook (env : HookEnv) (call : StartHookCall) : HookOutcome :=
  if env.activator = some METHOD_ID then
    runHookGuarded (env.activityMods.contains "deployment") env call
  else ⟨HookResult.passThrough call, [], []⟩

/-- The usvfs-run start hook of the earlier revision: identical except that the
in-flight test is the module-level deploying flag. -/
def startHookV0 (deploying : Bool) (env : HookEnv) (call : StartHookCall) :
    HookOutcome :=
  if env.activator = some METHOD_ID then runHookGuarded deploying env call
  else ⟨HookResult.passThrough call, [], []⟩

lemma startHook_active (env : HookEnv) (call : StartHookCall)
    (hact : env.activator = some METHOD_ID) :
    startHook env call
      = runHookGuarded (env.activityMods.contains "deployment") env call := by
  simp [startHook, hact]

lemma startHookV0_active (deploying : Bool) (env : HookEnv) (call : StartHookCall)
    (hact : env.activator = some METHOD_ID) :
    startHookV0 deploying env call = runHookGuarded deploying env call := by
  simp [startHookV0, hact]

lemma runHookGuarded_idle (env : HookEnv) (call : StartHookCall)
    (hdr : env.deployResult = none) :
    runHookGuarded false env call
      = ⟨toHookResult (afterDeploy env call (Except.ok ())).1, [true],
         (afterDeploy env call (Except.ok ())).2⟩ := by
  simp [runHookGuarded, hdr]

lemma runHookGuarded_inflight (env : HookEnv) (call : StartHookCall) :
    runHookGuarded true env call
      = ⟨toHookResult (afterDeploy env call (Except.ok ())).1, [],
         (afterDeploy env call (Except.ok ())).2⟩ := by
  simp [runHookGuarded]

lemma runHookGuarded_emits (b : Bool) (env : HookEnv) (call : StartHookCall) :
    (runHookGuarded b env call).deployEmits = if b then [] else [true] := by
  cases b
  · simp only [runHookGuarded]
    cases h : env.deployResult <;> simp [h]
  · simp [runHookGuarded]

/-- C3: when the current activator is not this method, the hook resolves with
the launch request passed through unchanged, emits no deploy-mods event and
performs no hooked launch. -/
theorem C3_passthrough (env : HookEnv) (call : StartHookCall)
    (h : env.activator ≠ some METHOD_ID) :
    startHook env call = ⟨HookResult.passThrough call, [], []⟩ := by
  simp [startHook, h]

/-- Witness launch request shared by the hook witnesses. -/
def callW : StartHookCall :=
  ⟨"C:\\Games\\Foo\\foo.exe", ["-x"], some "D:\\work", [("A", "override")]⟩

/-- Witness hook world with a different activator selected. -/
def envOtherW : HookEnv :=
  ⟨some "hardlink-activator", [], none, fun _ => false, fun _ => none, [("A", "1")]⟩

/-- Witness for C3: with another activator selected the request passes through. -/
theorem C3_witness :
    startHook envOtherW callW = ⟨HookResult.passThrough callW, [], []⟩ :=
  C3_passthrough envOtherW callW (by decide)

/-- C4: with this method active, the hook emits exactly one deploy-mods event,
tagged fromusvfs, when no deployment is in flight, and emits none when one is,
proceeding directly to the stat and launch step; in the earlier revision the
in-flight test is the deploying flag instead of the activity marker. -/
theorem C4_deploy_trigger (env : HookEnv) (call : StartHookCall)
    (hact : env.activator = some METHOD_ID) :
    (env.activityMods.contains "deployment" = false →
        (startHook env call).deployEmits = [true]) ∧
    (env.activityMods.contains "deployment" = true →
        startHook env call
          = ⟨toHookResult (afterDeploy env call (Except.ok ())).1, [],
             (afterDeploy env call (Except.ok ())).2⟩) ∧
    (startHookV0 false env call).deployEmits = [true] ∧
    startHookV0 true env call
      = ⟨toHookResult (afterDeploy env call (Except.ok ())).1, [],
         (afterDeploy env call (Except.ok ())).2⟩ := by
  refine ⟨?_, ?_, ?_, ?_⟩
  · intro h
    rw [startHook_active env call hact, h, runHookGuarded_emits]
    simp
  · intro h
    rw [startHook_active env call hact, h, runHookGuarded_inflight]
  · rw [startHookV0_active false env call hact, runHookGuarded_emits]
    simp
  · rw [startHookV0_active true env call hact, runHookGuarded_inflight]

/-- Witness hook world with this method active and an existing executable. -/
def envDirectW : HookEnv :=
  ⟨some METHOD_ID, [], none, fun _ => true, fun _ => none, [("A", "1")]⟩

/-- Witness for C4: one tagged emission when idle, none when in flight. -/
theorem C4_witness :
    (startHook envDirectW callW).deployEmits = [true] ∧
    (startHookV0 true envDirectW callW).deployEmits = [] := by
  have h := C4_deploy_trigger envDirectW callW rfl
  exact ⟨h.1 rfl, by rw [h.2.2.2]⟩

/-- C5: when the executable does not exist on real disk and the deployment
handshake succeeded, the hook performs exactly one hooked launch, the
trampoline: a cmd /C command that changes into the caller-supplied working
directory or, absent or empty, the executable directory, and then runs the
original command line, with working directory c:\ and the spread environment. -/
theorem C5_trampoline (env : HookEnv) (call : StartHookCall)
    (hact : env.activator = some METHOD_ID)
    (hfl : env.activityMods.contains "deployment" = false)
    (hdr : env.deployResult = none)
    (hexe : env.exeExists call.executable = false) :
    (startHook env call).vfsLaunches
      = [⟨"cmd /C \"cd "
            ++ (match call.cwd with
                | some c => if c.isEmpty then pathDirname call.executable else c
                | none => pathDirname call.executable)
            ++ " && " ++ call.executable ++ " " ++ String.intercalate " " call.args ++ "\"",
          some "c:\\", spreadMerge env.procEnv call.env⟩] := by
  rw [startHook_active env call hact, hfl, runHookGuarded_idle env call hdr]
  simp [afterDeploy, statLaunchDirect, hexe, enoentCatch, trampolineCmd, trampolineCwd,
        directCmd, String.append_assoc]

/-- Witness hook world with this method active and no executable on disk. -/
def envMissingW : HookEnv :=
  ⟨some METHOD_ID, [], none, fun _ => false, fun _ => none, [("A", "1")]⟩

/-- Witness launch request without a working directory. -/
def callNoCwdW : StartHookCall :=
  ⟨"C:\\Games\\Foo\\foo.exe", ["-x"], none, [("B", "2")]⟩

/-- Witness for C5: the trampoline command for a missing executable, falling
back to the executable directory as the cd target. -/
theorem C5_witness :
    (startHook envMissingW callNoCwdW).vfsLaunches
      = [⟨"cmd /C \"cd C:\\Games\\Foo && C:\\Games\\Foo\\foo.exe -x\"",
          some "c:\\", [("A", "1"), ("B", "2")]⟩] :=
  (C5_trampoline envMissingW callNoCwdW rfl rfl rfl rfl).trans (by decide)

/-- C6: when the executable exists, the hook performs exactly one hooked launch
with the plain command line, the caller-supplied working directory verbatim and
the process environment overridden by the caller overrides, and when that call
does not throw the hook settles with the ProcessCanceled marker saying run
through usvfs. -/
theorem C6_direct_launch (env : HookEnv) (call : StartHookCall)
    (hact : env.activator = some METHOD_ID)
    (hfl : env.activityMods.contains "deployment" = false)
    (hdr : env.deployResult = none)
    (hexe : env.exeExists call.executable = true)
    (hok : env.launchErr (call.executable ++ " " ++ String.intercalate " " call.args) = none) :
    (startHook env call).vfsLaunches
      = [⟨call.executable ++ " " ++ String.intercalate " " call.args, call.cwd,
          spreadMerge env.procEnv call.env⟩] ∧
    (startHook env call).result = HookResult.canceled "run through usvfs" := by
  rw [startHook_active env call hact, hfl, runHookGuarded_idle env call hdr]
  constructor <;>
    simp [afterDeploy, statLaunchDirect, hexe, hok, enoentCatch, directCmd, toHookResult]

/-- Witness for C6: the direct hooked launch for an existing executable, with
the override winning in the merged environment. -/
theorem C6_witness :
    (startHook envDirectW callW).vfsLaunches
      = [⟨"C:\\Games\\Foo\\foo.exe -x", some "D:\\work", [("A", "override")]⟩] ∧
    (startHook envDirectW callW).result = HookResult.canceled "run through usvfs" := by
  have h := C6_direct_launch envDirectW callW rfl rfl rfl rfl rfl
  exact ⟨h.1.trans (by decide), h.2⟩

/-- Structured reasons isSupported can return (the description closures of the
source, keyed by which branch produced them). -/
inductive SupportReason where
  | onlyWindows : SupportReason
  | incompatibleGame (name : String) : SupportReason
  deriving DecidableEq, Repr

/-- isSupported of the later revision: a reason when the platform is not
win32, a reason naming the game when its id is denylisted, and undefined
otherwise.  The state argument is consumed only through the gameName selector,
modelled as a function. -/
def isSupported (platform : String) (gameNameOf : String → String)
    (gameId modTypeId : String) : Option SupportReason :=
  if platform ≠ "win32" then some SupportReason.onlyWindows
  else if UNSUPPORTED_GAMES.contains gameId then
    some (SupportReason.incompatibleGame (gameNameOf gameId))
  else none

/-- C7: isSupported returns the platform reason off Windows, the
incompatible-game reason for a denylisted game on Windows, and undefined in
every other case; the denylist is exactly thesims4 and kingdomcomedeliverance. -/
theorem C7_isSupported_cases (platform : String) (gameNameOf : String → String)
    (gameId modTypeId : String) :
    UNSUPPORTED_GAMES = ["thesims4", "kingdomcomedeliverance"] ∧
    (platform ≠ "win32" →
        isSupported platform gameNameOf gameId modTypeId = some SupportReason.onlyWindows) ∧
    (platform = "win32" → gameId ∈ UNSUPPORTED_GAMES →
        isSupported platform gameNameOf gameId modTypeId
          = some (SupportReason.incompatibleGame (gameNameOf gameId))) ∧
    (platform = "win32" → gameId ∉ UNSUPPORTED_GAMES →
        isSupported platform gameNameOf gameId modTypeId = none) := by
  refine ⟨rfl, ?_, ?_, ?_⟩
  · intro h
    simp [isSupported, h]
  · intro hp hg
    simp [isSupported, hp, hg]
  · intro hp hg
    simp [isSupported, hp, hg]

/-- Witness for C7: all three branches at concrete inputs. -/
theorem C7_witness :
    isSupported "linux" (fun _ => "The Sims 4") "thesims4" "" = some SupportReason.onlyWindows ∧
    isSupported "win32" (fun _ => "The Sims 4") "thesims4" ""
      = some (SupportReason.incompatibleGame "The Sims 4") ∧
    isSupported "win32" (fun _ => "Skyrim") "skyrim" "" = none := by
  have h1 := C7_isSupported_cases "linux" (fun _ => "The Sims 4") "thesims4" ""
  have h2 := C7_isSupported_cases "win32" (fun _ => "The Sims 4") "thesims4" ""
  have h3 := C7_isSupported_cases "win32" (fun _ => "Skyrim") "skyrim" ""
  exact ⟨h1.2.1 (by decide), h2.2.2.1 rfl (by decide), h3.2.2.2 rfl (by decide)⟩

/-- The restart-helpers emissions of the activator-watcher callback for one
observed change of the settings.mods.activator mapping: prev and next are the
mapping before and after the change, gameMode the currently active game. -/
def onActivatorChange (gameMode : String) (prev next : String → Option String) :
    List String :=
  if prev gameMode ≠ next gameMode ∧
      (prev gameMode = some METHOD_ID ∨ next gameMode = some METHOD_ID)
  then ["restart-helpers"]
  else []

/-- C8: exactly one restart-helpers broadcast when the value for the active
game changes and either the prior or the new value is this method; none when
it changes between two other values, and none when it does not change. -/
theorem C8_watcher (gameMode : String) (prev next : String → Option String) :
    (prev gameMode ≠ next gameMode →
      (prev gameMode = some METHOD_ID ∨ next gameMode = some METHOD_ID) →
      onActivatorChange gameMode prev next = ["restart-helpers"]) ∧
    (prev gameMode ≠ next gameMode →
      prev gameMode ≠ some METHOD_ID → next gameMode ≠ some METHOD_ID →
      onActivatorChange gameMode prev next = []) ∧
    (prev gameMode = next gameMode →
      onActivatorChange gameMode prev next = []) := by
  refine ⟨?_, ?_, ?_⟩
  · intro h1 h2
    exact if_pos ⟨h1, h2⟩
  · intro h1 h2 h3
    exact if_neg (fun hc => hc.2.elim h2 h3)
  · intro h
    exact if_neg (fun hc => hc.1 h)

/-- Witness for C8: switching away from this method broadcasts once; switching
between two other methods or observing no change broadcasts nothing. -/
theorem C8_watcher_witness :
    onActivatorChange "skyrim" (fun _ => some METHOD_ID)
        (fun _ => some "hardlink-activator") = ["restart-helpers"] ∧
    onActivatorChange "skyrim" (fun _ => some "hardlink-activator")
        (fun _ => some "move-activator") = [] ∧
    onActivatorChange "skyrim" (fun _ => some METHOD_ID)
        (fun _ => some METHOD_ID) = [] := by
  have h1 := C8_watcher "skyrim" (fun _ => some METHOD_ID) (fun _ => some "hardlink-activator")
  have h2 := C8_watcher "skyrim" (fun _ => some "hardlink-activator")
    (fun _ => some "move-activator")
  have h3 := C8_watcher "skyrim" (fun _ => some METHOD_ID) (fun _ => some METHOD_ID)
  exact ⟨h1.1 (by decide) (Or.inl rfl), h2.2.1 (by decide) (by decide) (by decide),
    h3.2.2 rfl⟩

/-- What the first-position deploy-mods listener of the earlier revision can do
with a request: return without action, or reject it with a cancellation error. -/
inductive ListenerAction where
  | pass : ListenerAction
  | reject (msg : String) : ListenerAction
  deriving DecidableEq, Repr

/-- Observable behaviour of one listener invocation: whether the target profile
was looked up in the state, and the action taken on the request. -/
structure ListenerOutcome where
  readProfile : Bool
  action : ListenerAction
  deriving DecidableEq, Repr

/-- The earlier-revision prepend listener on deploy-mods: return at once when
the callback carries the fromusvfs tag or a deployment is in flight; otherwise
look up the target profile in the state and return without further action (the
body never invokes the callback and raises nothing). -/
def deployModsListener (deploying : Bool) (fromusvfs : Bool) : ListenerOutcome :=
  if fromusvfs || deploying then ⟨false, ListenerAction.pass⟩
  else ⟨true, ListenerAction.pass⟩

/-- C9 counterexample: a user-originated request (callback without the
fromusvfs tag) with no deployment in flight is not rejected: the listener takes
no action at all, whichever method is the active one, contradicting the claim
that such a request is rejected outright with a cancellation signal. -/
theorem C9_counterexample :
    (deployModsListener false false).action = ListenerAction.pass := rfl

/-- C9 amended: the listener lets hook-originated and in-flight requests
through untouched; for user-originated requests it merely reads the target
profile from the state, and it never rejects any request. -/
theorem C9_listener_never_rejects (deploying fromusvfs : Bool) :
    (deployModsListener deploying fromusvfs).action = ListenerAction.pass ∧
    (deployModsListener deploying fromusvfs).readProfile
      = (!fromusvfs && !deploying) := by
  cases deploying <;> cases fromusvfs <;> simp [deployModsListener]

end USVFS
